import Mathlib

/-!
Verification of the `asmqdm` Python wrapper (`src/python/asmqdm/core.py` and
`src/python/asmqdm/_ffi.py`): a tqdm-compatible progress-bar front end over an
x86_64 assembly engine reached through ctypes FFI.

The wrapper is embedded shallowly: the instance state of class `asmqdm` becomes
the structure `Inst`, each Python method becomes a Lean function returning the
updated state together with the list of FFI calls it performed, and byte strings
become `List Nat`.  The assembly engine itself (`libasmqdm.so`) is not part of
the repository sources; where its behaviour matters it is modelled explicitly
from the specification and marked as such.
-/

namespace Asmqdm

/-- Description byte strings (`bytes` in Python) are modelled as lists of bytes. -/
abbrev Bytes := List Nat

/-- One call across the FFI boundary into the assembly engine, as issued by
`_ffi.py`.  `create`/`createAsync` record the arguments the wrapper passes
(total, description length, flags word); the others record which engine entry
point was invoked and the increment where there is one. -/
inductive FFICall where
  | create (total : Int) (descLen : Nat) (flags : Nat)
  | createAsync (total : Int) (descLen : Nat) (flags : Nat)
  | update (n : Int)
  | updateAsync (n : Int)
  | render
  | close
  | closeAsync
  | setDescription (descLen : Nat)
  deriving DecidableEq, Repr

/-- `_ffi.FLAG_LEAVE` -/
def FLAG_LEAVE : Nat := 0x01
/-- `_ffi.FLAG_DISABLE` -/
def FLAG_DISABLE : Nat := 0x02
/-- `_ffi.FLAG_ASCII` -/
def FLAG_ASCII : Nat := 0x04
/-- `_ffi.FLAG_ASYNC` -/
def FLAG_ASYNC : Nat := 0x20

/-- The flags word computed by `_ffi.create` (lines 149–155): start from 0 and
OR in `FLAG_LEAVE`, `FLAG_DISABLE`, `FLAG_ASCII` according to the booleans. -/
def create_flags (leave disable ascii_only : Bool) : Nat :=
  let flags : Nat := 0
  let flags := if leave then flags ||| FLAG_LEAVE else flags
  let flags := if disable then flags ||| FLAG_DISABLE else flags
  let flags := if ascii_only then flags ||| FLAG_ASCII else flags
  flags

/-- The flags word computed by `_ffi.create_async` (lines 263–269): start from
`FLAG_ASYNC` (always set) and OR in the same three conditional bits. -/
def create_async_flags (leave disable ascii_only : Bool) : Nat :=
  let flags : Nat := FLAG_ASYNC
  let flags := if leave then flags ||| FLAG_LEAVE else flags
  let flags := if disable then flags ||| FLAG_DISABLE else flags
  let flags := if ascii_only then flags ||| FLAG_ASCII else flags
  flags

/-- `desc_len = len(desc_bytes) if desc_bytes else 0` in `_ffi.create` /
`_ffi.create_async` (an empty bytes object is falsy, so it also yields 0). -/
def descLenOf (db : Option Bytes) : Nat :=
  match db with
  | none => 0
  | some d => if d.isEmpty then 0 else d.length

/-- `self.desc.encode('utf-8') if self.desc else None` in `asmqdm.__init__`
(line 123): an absent or empty description yields `None`. -/
def encodeInit (desc : Option Bytes) : Option Bytes :=
  match desc with
  | none => none
  | some d => if d.isEmpty then none else some d

/-- The Python-side state of one `asmqdm` instance (`core.py`).  `_state`
records whether the opaque engine handle is non-`None`; `engineCount` models
the counter held inside the engine state, whose `update`/`update_async` entry
points return the post-increment count (modelled from the spec §6, since the
assembly source is not in the repository). -/
structure Inst where
  total : Int
  leave : Bool
  disable : Bool
  ascii_only : Bool
  async_render : Bool
  _state : Bool
  _closed : Bool
  _is_async : Bool
  desc : Option Bytes
  _desc_bytes : Option Bytes
  n : Int
  engineCount : Int
  deriving DecidableEq, Repr

/-- `total if total is not None else (len(iterable) if it has one) else 0`
(`asmqdm.__init__` lines 107–113).  `iterLen` is `some l` when the wrapped
iterable has a `__len__` returning `l`, `none` otherwise. -/
def resolve_total (total? : Option Int) (iterLen : Option Nat) : Int :=
  match total? with
  | some t => t
  | none =>
    match iterLen with
    | some l => (l : Int)
    | none => 0

/-- `asmqdm.__init__`: resolve the total, and unless `disable` is set, create
the engine state via `_ffi.create` / `_ffi.create_async`, recording the FFI
call it makes.  Returns the constructed instance and the FFI trace. -/
def init (iterLen : Option Nat) (desc : Option Bytes) (total? : Option Int)
    (leave : Bool) (disable : Bool) (ascii_only : Bool) (async_render : Bool) :
    Inst × List FFICall :=
  let total := resolve_total total? iterLen
  if disable then
    ({ total := total, leave := leave, disable := disable,
       ascii_only := ascii_only, async_render := async_render,
       _state := false, _closed := false, _is_async := false,
       desc := desc, _desc_bytes := none, n := 0, engineCount := 0 }, [])
  else
    let db := encodeInit desc
    if async_render then
      ({ total := total, leave := leave, disable := disable,
         ascii_only := ascii_only, async_render := async_render,
         _state := true, _closed := false, _is_async := true,
         desc := desc, _desc_bytes := db, n := 0, engineCount := 0 },
       [FFICall.createAsync total (descLenOf db)
          (create_async_flags leave disable ascii_only)])
    else
      ({ total := total, leave := leave, disable := disable,
         ascii_only := ascii_only, async_render := async_render,
         _state := true, _closed := false, _is_async := false,
         desc := desc, _desc_bytes := db, n := 0, engineCount := 0 },
       [FFICall.create total (descLenOf db)
          (create_flags leave disable ascii_only)])

/-- `asmqdm.update` (lines 180–199): under the guard
`self._state is not None and not self._closed` call the engine and take its
returned post-increment count as `self.n`; otherwise just `self.n += n`. -/
def Inst.update (s : Inst) (i : Int) : Inst × List FFICall :=
  if s._state && !s._closed then
    if s._is_async then
      ({ s with engineCount := s.engineCount + i, n := s.engineCount + i },
       [FFICall.updateAsync i])
    else
      ({ s with engineCount := s.engineCount + i, n := s.engineCount + i },
       [FFICall.update i])
  else
    ({ s with n := s.n + i }, [])

/-- `asmqdm.close` (lines 201–209): under the same guard, call
`_ffi.close_async` or `_ffi.close`, then set `_state = None` and
`_closed = True`; otherwise do nothing. -/
def Inst.close (s : Inst) : Inst × List FFICall :=
  if s._state && !s._closed then
    ({ s with _state := false, _closed := true },
     [if s._is_async then FFICall.closeAsync else FFICall.close])
  else
    (s, [])

/-- `asmqdm.refresh` (lines 211–214): force a render under the guard. -/
def Inst.refresh (s : Inst) : Inst × List FFICall :=
  if s._state && !s._closed then (s, [FFICall.render]) else (s, [])

/-- `desc.encode('utf-8') if desc else b""` in `asmqdm.set_description`
(line 228): unlike `__init__`, an absent/empty description yields `b""`. -/
def encodeSetDesc (desc : Option Bytes) : Bytes :=
  match desc with
  | none => []
  | some d => if d.isEmpty then [] else d

/-- `asmqdm.set_description` (lines 216–229): always record `self.desc`; under
the guard, replace `self._desc_bytes` and call the engine. -/
def Inst.set_description (s : Inst) (d : Option Bytes) : Inst × List FFICall :=
  let s1 := { s with desc := d }
  if s1._state && !s1._closed then
    let db := encodeSetDesc d
    ({ s1 with _desc_bytes := some db }, [FFICall.setDescription db.length])
  else
    (s1, [])

/-- `asmqdm.__len__` (lines 176–178): return `self.total`. -/
def Inst.len (s : Inst) : Int := s.total

/-- A Python-level method call on an `asmqdm` instance. -/
inductive Op where
  | update (i : Int)
  | close
  | refresh
  | set_description (d : Option Bytes)
  deriving DecidableEq, Repr

/-- Dispatch one method call. -/
def applyOp (s : Inst) : Op → Inst × List FFICall
  | Op.update i => s.update i
  | Op.close => s.close
  | Op.refresh => s.refresh
  | Op.set_description d => s.set_description d

/-- Run a sequence of method calls, concatenating the FFI traces. -/
def runOps (s : Inst) : List Op → Inst × List FFICall
  | [] => (s, [])
  | op :: ops =>
    let r1 := applyOp s op
    let r2 := runOps r1.1 ops
    (r2.1, r1.2 ++ r2.2)

/-- Run a sequence of `update` calls (a special case of `runOps`, kept
separate so counting claims read directly). -/
def runUpdates (s : Inst) : List Int → Inst × List FFICall
  | [] => (s, [])
  | i :: is =>
    let r1 := s.update i
    let r2 := runUpdates r1.1 is
    (r2.1, r1.2 ++ r2.2)

/-- The `for` loop over an `asmqdm` wrapping a list, run to exhaustion:
`__iter__` then repeated `__next__` (`core.py` lines 148–165).  Each produced
element is preceded by `self.update(1)`; when the underlying iterator raises
`StopIteration`, `self.close()` runs and the loop ends.  Returns the produced
elements in order, the final instance state, and the FFI trace of the loop. -/
def runFor (s : Inst) : List α → List α × Inst × List FFICall
  | [] =>
    let r := s.close
    ([], r.1, r.2)
  | x :: xs =>
    let r1 := s.update 1
    let rest := runFor r1.1 xs
    (x :: rest.1, rest.2.1, r1.2 ++ rest.2.2)

/-- The same loop when the consumer breaks out after taking `k` elements
(early termination of a bare `for` loop, no context manager): `__next__` is
simply not called again, so nothing runs on the break path. -/
def runForBreak (s : Inst) : List α → Nat → List α × Inst × List FFICall
  | _, 0 => ([], s, [])
  | [], _ + 1 =>
    let r := s.close
    ([], r.1, r.2)
  | x :: xs, k + 1 =>
    let r1 := s.update 1
    let rest := runForBreak r1.1 xs k
    (x :: rest.1, rest.2.1, r1.2 ++ rest.2.2)

/-! ## Description-buffer lifetime (`set_description`)

Buffers are given identities (numeric ids).  `pyRef` is the buffer whose only
Python reference is `self._desc_bytes`; `engineDesc` is the buffer whose
pointer the engine state currently holds (installed by the last
`progress_bar_set_description` / `progress_bar_create` call); `freed` lists
buffers whose last Python reference has been dropped — under CPython reference
counting such a buffer is deallocated at once, while the engine may still hold
a raw pointer to it (`_ffi.py`: "caller must keep reference!"). -/

structure DescState where
  pyRef : Option Nat
  engineDesc : Option Nat
  freed : List Nat
  deriving DecidableEq, Repr

/-- Line 228 of `core.py`, `self._desc_bytes = desc.encode(...)`: rebinding the
attribute drops the wrapper's reference to the old buffer (freeing it if that
was the last reference) and makes `newBuf` the referenced buffer.  The engine
pointer is untouched by this step. -/
def dropAndAssign (s : DescState) (newBuf : Nat) : DescState :=
  { s with
    pyRef := some newBuf
    freed := match s.pyRef with
      | some old => old :: s.freed
      | none => s.freed }

/-- Line 229 of `core.py`, `_ffi.set_description(self._state, self._desc_bytes)`:
the engine pointer is swapped to the newly referenced buffer. -/
def installInEngine (s : DescState) : DescState :=
  { s with engineDesc := s.pyRef }

/-- The two successive program points inside `asmqdm.set_description` after the
guard: the state right after line 228, then the state right after line 229. -/
def set_description_states (s : DescState) (newBuf : Nat) : List DescState :=
  let s1 := dropAndAssign s newBuf
  let s2 := installInEngine s1
  [s1, s2]

/-- A state is safe for a concurrent render-thread read when the buffer the
engine points at has not been freed. -/
def DescState.readSafe (s : DescState) : Prop :=
  ∀ b, s.engineDesc = some b → b ∉ s.freed

instance (s : DescState) : Decidable s.readSafe :=
  match h : s.engineDesc with
  | none => isTrue (fun _ hb => by simp [h] at hb)
  | some b =>
    if hb : b ∈ s.freed then
      isFalse (fun hs => (hs b h) hb)
    else
      isTrue (fun b' hb' => by
        rw [h] at hb'
        injection hb' with e
        subst e
        exact hb)

/-! ## Async engine shutdown (`close_async`)

Modelled from the spec: the assembly implementations of the render-thread loop
and `progress_bar_close_async` are not under `src/` (only the ctypes
declarations in `_ffi.py` are).  Spec §4.4/§5: the render thread repeatedly
sleeps for a fixed sampling interval, samples the counter, renders, and checks
`shutdown_requested`; `close_async` sets the one-shot shutdown flag and blocks
until the thread has performed exactly one final render of the final counter
value and exited.  Time is discretised into ticks; one sampling interval is
`interval` ticks, and `sleepRemaining` is how far the thread currently is into
its sleep. -/

structure AsyncState where
  count : Int
  shutdown_requested : Bool
  sleepRemaining : Nat
  exited : Bool
  finalRenders : List Int
  deriving DecidableEq, Repr

/-- The render thread's sampling interval, in ticks (spec: ≈16–33 ms). -/
def interval : Nat := 16

/-- One tick of the render thread: sleep down to 0; on waking, either perform
the single final render and exit (when shutdown was requested) or render a
sample and go back to sleep.  The thread never mutates `count`. -/
def threadTick (s : AsyncState) : AsyncState :=
  if s.exited then s
  else if s.sleepRemaining ≠ 0 then { s with sleepRemaining := s.sleepRemaining - 1 }
  else if s.shutdown_requested then
    { s with exited := true, finalRenders := s.count :: s.finalRenders }
  else { s with sleepRemaining := interval }

/-- The caller side of `close_async`: spin (up to the given fuel, in ticks)
until the render thread has exited. -/
def joinLoop : Nat → AsyncState → AsyncState
  | 0, s => s
  | fuel + 1, s => if s.exited then s else joinLoop fuel (threadTick s)

/-- `close_async`: set `shutdown_requested`, then block until the thread has
exited.  The fuel `interval + 2` ticks is the claimed bound: at most one full
sampling interval of residual sleep, plus the wake-and-exit tick. -/
def close_async (s : AsyncState) : AsyncState :=
  joinLoop (interval + 2) { s with shutdown_requested := true }

/-! ## Helper lemmas -/

/-- When the guard `self._state is not None and not self._closed` fails,
`update` only adds to the Python-side counter and performs no FFI call. -/
lemma update_noGuard (s : Inst) (i : Int) (h : (s._state && !s._closed) = false) :
    s.update i = ({ s with n := s.n + i }, []) := by
  simp [Inst.update, h]

/-- When the guard fails, `close` is a no-op. -/
lemma close_noGuard (s : Inst) (h : (s._state && !s._closed) = false) :
    s.close = (s, []) := by
  simp [Inst.close, h]

/-- On an instance without an engine handle, a sequence of updates adds the
sum of the increments to `n` and performs no FFI call. -/
lemma runUpdates_disabled (ns : List Int) : ∀ s : Inst, s._state = false →
    runUpdates s ns = ({ s with n := s.n + ns.sum }, []) := by
  induction ns with
  | nil =>
    intro s _
    simp [runUpdates]
  | cons i is ih =>
    intro s h
    simp only [runUpdates]
    rw [update_noGuard s i (by simp [h])]
    rw [ih _ (by simp [h])]
    simp [add_assoc]

/-! ## Claims -/

/-- **C1.** For every instance created with `disable=true` and every finite
sequence of increments applied via `update`, the final Python-side count `n`
equals the sum of the increments, no FFI function is invoked (neither at
construction nor by the updates — and since the wrapper writes to the terminal
only through the engine, no terminal bytes are written), and `close` on such
an instance succeeds as a no-op. -/
theorem claim1_disabled_counting (iterLen : Option Nat) (desc : Option Bytes)
    (total? : Option Int) (leave ascii_only async_render : Bool) (ns : List Int) :
    (init iterLen desc total? leave true ascii_only async_render).2 = [] ∧
    (runUpdates (init iterLen desc total? leave true ascii_only async_render).1 ns).1.n
      = ns.sum ∧
    (runUpdates (init iterLen desc total? leave true ascii_only async_render).1 ns).2
      = [] ∧
    Inst.close (runUpdates (init iterLen desc total? leave true ascii_only
        async_render).1 ns).1
      = ((runUpdates (init iterLen desc total? leave true ascii_only
          async_render).1 ns).1, []) := by
  have hinit : (init iterLen desc total? leave true ascii_only async_render).1._state
      = false := by
    simp [init]
  have hrun := runUpdates_disabled ns _ hinit
  refine ⟨by simp [init], ?_, ?_, ?_⟩
  · rw [hrun]
    simp [init]
  · rw [hrun]
  · rw [hrun]
    exact close_noGuard _ (by simp [hinit])

/-- **C2.** `close` is idempotent: for every instance state, calling `close` a
second time after a first `close` performs no FFI call and leaves the state
(including `_state` and `_closed`) unchanged. -/
theorem claim2_close_idempotent (s : Inst) :
    Inst.close (Inst.close s).1 = ((Inst.close s).1, []) := by
  by_cases h : (s._state && !s._closed) = true
  · simp [Inst.close, h]
  · rw [close_noGuard s (by simpa using h)]
    exact close_noGuard s (by simpa using h)

/-- **C8.** Immediately after construction with any total and before any
update, the instance's count `n` equals 0 (`core.py` line 146). -/
theorem claim8_initial_count_zero (iterLen : Option Nat) (desc : Option Bytes)
    (total? : Option Int) (leave disable ascii_only async_render : Bool) :
    (init iterLen desc total? leave disable ascii_only async_render).1.n = 0 := by
  cases disable <;> cases async_render <;> rfl

/-- **C9.** After `close` has been called, a subsequent `update i` raises no
error and performs no FFI call: it silently adds `i` to the Python-side
counter `n`. -/
theorem claim9_update_after_close (s : Inst) (i : Int) :
    Inst.update (Inst.close s).1 i
      = ({ (Inst.close s).1 with n := (Inst.close s).1.n + i }, []) := by
  by_cases h : (s._state && !s._closed) = true
  · apply update_noGuard
    simp [Inst.close, h]
  · apply update_noGuard
    rw [close_noGuard s (by simpa using h)]
    simpa using h

/-- **C7.** The flags word is exactly the OR of `LEAVE=0x01` when `leave`,
`DISABLE=0x02` when `disable` and `ASCII=0x04` when `ascii_only`;
`create_async` additionally always sets `ASYNC=0x20` and `create` never does;
bits `0x08` and `0x10` are never set by either call. -/
theorem claim7_flags_bitmask : ∀ l d a : Bool,
    create_flags l d a =
      ((if l then FLAG_LEAVE else 0) ||| (if d then FLAG_DISABLE else 0) |||
        (if a then FLAG_ASCII else 0)) ∧
    create_async_flags l d a = FLAG_ASYNC ||| create_flags l d a ∧
    create_flags l d a &&& FLAG_ASYNC = 0 ∧
    create_async_flags l d a &&& FLAG_ASYNC = FLAG_ASYNC ∧
    create_flags l d a &&& 0x08 = 0 ∧
    create_flags l d a &&& 0x10 = 0 ∧
    create_async_flags l d a &&& 0x08 = 0 ∧
    create_async_flags l d a &&& 0x10 = 0 := by
  decide

/-- All four `__init__` branches set `total` to the resolved total. -/
lemma init_total (iterLen : Option Nat) (desc : Option Bytes) (total? : Option Int)
    (leave disable ascii_only async_render : Bool) :
    (init iterLen desc total? leave disable ascii_only async_render).1.total
      = resolve_total total? iterLen := by
  cases disable <;> cases async_render <;> rfl

/-- **C6.** The instance's total is the explicit `total` when given, else the
wrapped iterable's length when it has one, else the sentinel 0 meaning
"unknown length"; under the caller contract that an explicit total is
non-negative the resolved total is non-negative; and `__len__` returns it. -/
theorem claim6_total_resolution (iterLen : Option Nat) (desc : Option Bytes)
    (total? : Option Int) (leave disable ascii_only async_render : Bool)
    (hpos : ∀ t, total? = some t → 0 ≤ t) :
    (∀ t, total? = some t →
      (init iterLen desc total? leave disable ascii_only async_render).1.total = t) ∧
    (total? = none → ∀ l, iterLen = some l →
      (init iterLen desc total? leave disable ascii_only async_render).1.total
        = (l : Int)) ∧
    (total? = none → iterLen = none →
      (init iterLen desc total? leave disable ascii_only async_render).1.total = 0) ∧
    0 ≤ (init iterLen desc total? leave disable ascii_only async_render).1.total ∧
    Inst.len (init iterLen desc total? leave disable ascii_only async_render).1
      = (init iterLen desc total? leave disable ascii_only async_render).1.total := by
  rw [Inst.len, init_total]
  refine ⟨?_, ?_, ?_, ?_, rfl⟩
  · intro t ht
    simp [resolve_total, ht]
  · intro hn l hl
    simp [resolve_total, hn, hl]
  · intro hn hl
    simp [resolve_total, hn, hl]
  · cases ht : total? with
    | some t =>
      have := hpos t ht
      simpa [resolve_total, ht] using this
    | none =>
      cases hl : iterLen <;> simp [resolve_total, ht, hl]

/-- Witness for C6 at a concrete input: explicit `total = 5` over an iterable
of length 3, with the non-negativity contract discharged. -/
theorem claim6_total_resolution_witness :
    (init (some 3) none (some 5) true false false false).1.total = 5 := by
  exact (claim6_total_resolution (some 3) none (some 5) true false false false
    (fun t ht => by injection ht with e; omega)).1 5 rfl

/-- Running the `for` loop to exhaustion on a live sync-mode instance yields
the list unchanged, one `update(1)` FFI call per element followed by exactly
one `close`, and leaves the instance closed. -/
lemma runFor_active {α : Type} (xs : List α) : ∀ s : Inst, s._state = true →
    s._closed = false → s._is_async = false →
    (runFor s xs).1 = xs ∧
    (runFor s xs).2.2 = List.replicate xs.length (FFICall.update 1) ++ [FFICall.close] ∧
    (runFor s xs).2.1._closed = true ∧
    (runFor s xs).2.1._state = false := by
  induction xs with
  | nil =>
    intro s h1 h2 h3
    simp [runFor, Inst.close, h1, h2, h3]
  | cons x xs ih =>
    intro s h1 h2 h3
    have hup : s.update 1
        = ({ s with engineCount := s.engineCount + 1, n := s.engineCount + 1 },
           [FFICall.update 1]) := by
      simp [Inst.update, h1, h2, h3]
    obtain ⟨ha, hb, hc, hd⟩ :=
      ih { s with engineCount := s.engineCount + 1, n := s.engineCount + 1 }
        (by simp [h1]) (by simp [h2]) (by simp [h3])
    simp only [runFor, hup]
    exact ⟨by simp [ha], by simp [hb, List.replicate_succ], hc, hd⟩

/-- Breaking out of the `for` loop after `k ≤ length` elements on a live
sync-mode instance yields the first `k` elements with one `update(1)` call
each, and `close` is never invoked: the instance stays open. -/
lemma runForBreak_active {α : Type} (xs : List α) : ∀ (k : Nat), k ≤ xs.length →
    ∀ s : Inst, s._state = true → s._closed = false → s._is_async = false →
    (runForBreak s xs k).1 = xs.take k ∧
    (runForBreak s xs k).2.2 = List.replicate k (FFICall.update 1) ∧
    (runForBreak s xs k).2.1._closed = false ∧
    (runForBreak s xs k).2.1._state = true := by
  induction xs with
  | nil =>
    intro k hk s h1 h2 h3
    have hk0 : k = 0 := Nat.le_zero.mp hk
    subst hk0
    simp [runForBreak, h1, h2]
  | cons x xs ih =>
    intro k hk s h1 h2 h3
    cases k with
    | zero => simp [runForBreak, h1, h2]
    | succ k =>
      have hup : s.update 1
          = ({ s with engineCount := s.engineCount + 1, n := s.engineCount + 1 },
             [FFICall.update 1]) := by
        simp [Inst.update, h1, h2, h3]
      obtain ⟨ha, hb, hc, hd⟩ :=
        ih k (Nat.le_of_succ_le_succ (by simpa using hk))
          { s with engineCount := s.engineCount + 1, n := s.engineCount + 1 }
          (by simp [h1]) (by simp [h2]) (by simp [h3])
      simp only [runForBreak, hup]
      exact ⟨by simp [ha], by simp [hb, List.replicate_succ], hc, hd⟩

/-- **C3 (amended).** Iterating a (non-disabled, sync) `asmqdm` instance over a
finite list to exhaustion yields exactly the list's elements in order, issues
`update(1)` exactly once per produced element and `close` exactly once; but
release is *not* guaranteed on early termination: breaking out of a bare `for`
loop after `k` of the elements leaves the instance unclosed (no `close` call
is made on that exit path — only the context manager's `__exit__` would close
it). -/
theorem claim3_iteration_contract (xs : List Int) (iterLen : Option Nat)
    (desc : Option Bytes) (total? : Option Int) (leave ascii_only : Bool)
    (k : Nat) (hk : k ≤ xs.length) :
    (runFor (init iterLen desc total? leave false ascii_only false).1 xs).1 = xs ∧
    (runFor (init iterLen desc total? leave false ascii_only false).1 xs).2.2
      = List.replicate xs.length (FFICall.update 1) ++ [FFICall.close] ∧
    (runFor (init iterLen desc total? leave false ascii_only false).1 xs).2.1._closed
      = true ∧
    (runForBreak (init iterLen desc total? leave false ascii_only false).1 xs k).1
      = xs.take k ∧
    (runForBreak (init iterLen desc total? leave false ascii_only false).1 xs k).2.2
      = List.replicate k (FFICall.update 1) ∧
    (runForBreak (init iterLen desc total? leave false ascii_only false).1 xs k).2.1._closed
      = false := by
  obtain ⟨ha, hb, hc, _⟩ := runFor_active xs
    (init iterLen desc total? leave false ascii_only false).1 rfl rfl rfl
  obtain ⟨hd, he, hf, _⟩ := runForBreak_active xs k hk
    (init iterLen desc total? leave false ascii_only false).1 rfl rfl rfl
  exact ⟨ha, hb, hc, hd, he, hf⟩

/-- Witness for C3 at a concrete input: the full iteration over `[1, 2, 3]`
issues three `update(1)` calls and one `close`. -/
theorem claim3_iteration_contract_witness :
    (runFor (init (some 3) none none true false false false).1 [1, 2, 3]).2.2
      = List.replicate 3 (FFICall.update 1) ++ [FFICall.close] := by
  exact (claim3_iteration_contract [1, 2, 3] (some 3) none none true false 2
    (by decide)).2.1

/-- **C3 counterexample.** The claim asserts release on *every* exit path of
the iteration, including early termination.  Concretely: iterating
`asmqdm([10, 20, 30])` (sync mode, not disabled) and breaking after the first
element performs no `close`/`close_async` FFI call and leaves the instance
open (`_closed = False`, engine handle still live) — the bare iterator
protocol has no release on the break path. -/
theorem claim3_early_break_unreleased :
    (runForBreak (init (some 3) none none true false false false).1
        [10, 20, 30] 1).2.2.count FFICall.close = 0 ∧
    (runForBreak (init (some 3) none none true false false false).1
        [10, 20, 30] 1).2.2.count FFICall.closeAsync = 0 ∧
    (runForBreak (init (some 3) none none true false false false).1
        [10, 20, 30] 1).2.1._closed = false ∧
    (runForBreak (init (some 3) none none true false false false).1
        [10, 20, 30] 1).2.1._state = true := by
  decide

/-- The state invariant of C10: the engine handle is non-`None` only while the
instance is neither disabled nor closed. -/
def stateInv (s : Inst) : Prop :=
  s._state = true → (s.disable = false ∧ s._closed = false)

/-- `update` never changes `_state`, `_closed` or `disable`. -/
lemma update_proj (s : Inst) (i : Int) :
    (s.update i).1._state = s._state ∧ (s.update i).1._closed = s._closed ∧
    (s.update i).1.disable = s.disable := by
  by_cases hg : (s._state && !s._closed) = true <;>
    by_cases ha : s._is_async = true <;>
    simp [Inst.update, hg, ha]

/-- `close` either moves to the closed configuration or leaves the state
untouched; `disable` is never changed. -/
lemma close_proj (s : Inst) :
    ((s.close).1._state = false ∧ (s.close).1._closed = true ∧
      (s.close).1.disable = s.disable) ∨ (s.close).1 = s := by
  by_cases hg : (s._state && !s._closed) = true
  · left
    simp [Inst.close, hg]
  · right
    rw [close_noGuard s (by simpa using hg)]

/-- `refresh` never changes the instance state. -/
lemma refresh_proj (s : Inst) : (s.refresh).1 = s := by
  by_cases hg : (s._state && !s._closed) = true <;> simp [Inst.refresh, hg]

/-- `set_description` never changes `_state`, `_closed` or `disable`. -/
lemma set_description_proj (s : Inst) (d : Option Bytes) :
    (s.set_description d).1._state = s._state ∧
    (s.set_description d).1._closed = s._closed ∧
    (s.set_description d).1.disable = s.disable := by
  by_cases hg : (s._state && !s._closed) = true <;>
    simp [Inst.set_description, hg]

/-- Every method preserves the state invariant. -/
lemma applyOp_inv (s : Inst) (op : Op) (h : stateInv s) : stateInv (applyOp s op).1 := by
  cases op with
  | update i =>
    intro hst
    obtain ⟨h1, h2, h3⟩ := update_proj s i
    rw [show (applyOp s (Op.update i)).1 = (s.update i).1 from rfl] at hst ⊢
    rw [h1] at hst
    rw [h2, h3]
    exact h hst
  | close =>
    intro hst
    rw [show (applyOp s Op.close).1 = (s.close).1 from rfl] at hst ⊢
    rcases close_proj s with ⟨h1, _, _⟩ | h1
    · rw [h1] at hst
      exact absurd hst (by simp)
    · rw [h1] at hst ⊢
      exact h hst
  | refresh =>
    intro hst
    rw [show (applyOp s Op.refresh).1 = (s.refresh).1 from rfl] at hst ⊢
    rw [refresh_proj s] at hst ⊢
    exact h hst
  | set_description d =>
    intro hst
    obtain ⟨h1, h2, h3⟩ := set_description_proj s d
    rw [show (applyOp s (Op.set_description d)).1 = (s.set_description d).1 from rfl]
      at hst ⊢
    rw [h1] at hst
    rw [h2, h3]
    exact h hst

/-- Running any sequence of methods preserves the state invariant. -/
lemma runOps_inv (ops : List Op) : ∀ s : Inst, stateInv s → stateInv (runOps s ops).1 := by
  induction ops with
  | nil => intro s h; exact h
  | cons op ops ih =>
    intro s h
    exact ih _ (applyOp_inv s op h)

/-- When the guard fails (`_state` is `None` or `_closed` is set), no method
performs any FFI call. -/
lemma applyOp_noGuard (s : Inst) (op : Op) (h : (s._state && !s._closed) = false) :
    (applyOp s op).2 = [] := by
  cases op with
  | update i => simp [applyOp, Inst.update, h]
  | close => simp [applyOp, Inst.close, h]
  | refresh => simp [applyOp, Inst.refresh, h]
  | set_description d => simp [applyOp, Inst.set_description, h]

/-- Without an engine handle, every method keeps `_state = None` and performs
no FFI call. -/
lemma applyOp_noState (s : Inst) (op : Op) (h : s._state = false) :
    (applyOp s op).1._state = false ∧ (applyOp s op).2 = [] := by
  cases op with
  | update i =>
    exact ⟨(update_proj s i).1.trans h, applyOp_noGuard s _ (by simp [h])⟩
  | close =>
    constructor
    · rcases close_proj s with ⟨h1, _, _⟩ | h1
      · exact h1
      · show (s.close).1._state = false
        rw [h1]
        exact h
    · exact applyOp_noGuard s _ (by simp [h])
  | refresh =>
    refine ⟨?_, applyOp_noGuard s _ (by simp [h])⟩
    show (s.refresh).1._state = false
    rw [refresh_proj s]
    exact h
  | set_description d =>
    exact ⟨(set_description_proj s d).1.trans h, applyOp_noGuard s _ (by simp [h])⟩

/-- Without an engine handle, a whole method sequence performs no FFI call. -/
lemma runOps_noState (ops : List Op) : ∀ s : Inst, s._state = false →
    (runOps s ops).1._state = false ∧ (runOps s ops).2 = [] := by
  induction ops with
  | nil => intro s h; exact ⟨h, rfl⟩
  | cons op ops ih =>
    intro s h
    obtain ⟨h1, h2⟩ := applyOp_noState s op h
    obtain ⟨h3, h4⟩ := ih _ h1
    exact ⟨h3, by simp [runOps, h2, h4]⟩

/-- The flags word carried by an FFI call, when it is a creation call. -/
def flagsOfCall : FFICall → Option Nat
  | FFICall.create _ _ f => some f
  | FFICall.createAsync _ _ f => some f
  | _ => none

/-- No method other than construction performs a creation FFI call. -/
lemma applyOp_noCreate (s : Inst) (op : Op) :
    ∀ c ∈ (applyOp s op).2, flagsOfCall c = none := by
  cases op with
  | update i =>
    intro c hc
    by_cases hg : (s._state && !s._closed) = true <;>
      by_cases ha : s._is_async = true <;>
      simp [applyOp, Inst.update, hg, ha] at hc <;>
      simp [hc, flagsOfCall]
  | close =>
    intro c hc
    by_cases hg : (s._state && !s._closed) = true <;>
      by_cases ha : s._is_async = true <;>
      simp [applyOp, Inst.close, hg, ha] at hc <;>
      simp [hc, flagsOfCall]
  | refresh =>
    intro c hc
    by_cases hg : (s._state && !s._closed) = true <;>
      simp [applyOp, Inst.refresh, hg] at hc <;>
      simp [hc, flagsOfCall]
  | set_description d =>
    intro c hc
    by_cases hg : (s._state && !s._closed) = true <;>
      simp [applyOp, Inst.set_description, hg] at hc <;>
      simp [hc, flagsOfCall]

/-- A method sequence performs no creation FFI call. -/
lemma runOps_noCreate (ops : List Op) : ∀ (s : Inst), ∀ c ∈ (runOps s ops).2,
    flagsOfCall c = none := by
  induction ops with
  | nil => intro s c hc; simp [runOps] at hc
  | cons op ops ih =>
    intro s c hc
    simp only [runOps, List.mem_append] at hc
    rcases hc with hc | hc
    · exact applyOp_noCreate s op c hc
    · exact ih _ c hc

/-- The flag words the wrapper can actually build never contain
`FLAG_DISABLE` when the `disable` argument is false. -/
lemma flags_no_disable : ∀ l a : Bool,
    create_flags l false a &&& FLAG_DISABLE = 0 ∧
    create_async_flags l false a &&& FLAG_DISABLE = 0 := by
  decide

/-- Every creation call emitted by `__init__` carries a flags word with the
`DISABLE` bit clear (the engine handle is only created when `disable` is
false, and then `disable=False` is what is passed down). -/
lemma init_flags (iterLen : Option Nat) (desc : Option Bytes) (total? : Option Int)
    (leave disable ascii_only async_render : Bool) :
    ∀ c ∈ (init iterLen desc total? leave disable ascii_only async_render).2,
    ∀ f, flagsOfCall c = some f → f &&& FLAG_DISABLE = 0 := by
  intro c hc f hf
  cases disable with
  | true =>
    simp [init] at hc
  | false =>
    cases async_render with
    | true =>
      simp [init] at hc
      subst hc
      simp [flagsOfCall] at hf
      exact hf ▸ (flags_no_disable leave ascii_only).2
    | false =>
      simp [init] at hc
      subst hc
      simp [flagsOfCall] at hf
      exact hf ▸ (flags_no_disable leave ascii_only).1

/-- The constructed instance satisfies the state invariant. -/
lemma init_inv (iterLen : Option Nat) (desc : Option Bytes) (total? : Option Int)
    (leave disable ascii_only async_render : Bool) :
    stateInv (init iterLen desc total? leave disable ascii_only async_render).1 := by
  cases disable <;> cases async_render <;> intro hst <;> simp_all [init, stateInv]

/-- **C10.** Invariant kept by every operation: the engine handle `_state` is
non-`None` only while the instance is neither disabled nor closed; every
method performs its FFI calls only under that guard; an instance created with
`disable=True` never invokes any engine function at all; and the `DISABLE`
flag `0x02` is never transmitted to the engine by the wrapper. -/
theorem claim10_state_guard_invariant (iterLen : Option Nat) (desc : Option Bytes)
    (total? : Option Int) (leave disable ascii_only async_render : Bool)
    (ops : List Op) :
    ((runOps (init iterLen desc total? leave disable ascii_only async_render).1
        ops).1._state = true →
      (runOps (init iterLen desc total? leave disable ascii_only async_render).1
        ops).1.disable = false ∧
      (runOps (init iterLen desc total? leave disable ascii_only async_render).1
        ops).1._closed = false) ∧
    (∀ (s1 : Inst) (op : Op), (s1._state && !s1._closed) = false →
      (applyOp s1 op).2 = []) ∧
    (disable = true →
      (init iterLen desc total? leave disable ascii_only async_render).2 = [] ∧
      (runOps (init iterLen desc total? leave disable ascii_only async_render).1
        ops).2 = []) ∧
    (∀ c ∈ (init iterLen desc total? leave disable ascii_only async_render).2 ++
        (runOps (init iterLen desc total? leave disable ascii_only async_render).1
          ops).2,
      ∀ f, flagsOfCall c = some f → f &&& FLAG_DISABLE = 0) := by
  refine ⟨?_, applyOp_noGuard, ?_, ?_⟩
  · exact runOps_inv ops _ (init_inv iterLen desc total? leave disable ascii_only
      async_render)
  · intro hd
    subst hd
    refine ⟨by simp [init], ?_⟩
    exact (runOps_noState ops _ (by simp [init])).2
  · intro c hc f hf
    rcases List.mem_append.mp hc with hc | hc
    · exact init_flags iterLen desc total? leave disable ascii_only async_render
        c hc f hf
    · exact absurd (runOps_noCreate ops _ c hc) (by simp [hf])

/-- Witness for C10 at a concrete input: a disabled instance run through an
`update` and a `close` performs no FFI call. -/
theorem claim10_state_guard_invariant_witness :
    (runOps (init none none none true true false false).1
      [Op.update 1, Op.close]).2 = [] := by
  exact ((claim10_state_guard_invariant none none none true true false false
    [Op.update 1, Op.close]).2.2.1 rfl).2

/-- **C4 (code bug).** The claim says the old description buffer is retained
until after the new buffer has been installed in the engine, and only released
afterwards.  The code does the opposite: `core.py` line 228 rebinds
`self._desc_bytes` (dropping the wrapper's — and, the buffer having been
created by `encode`, the last — reference to the old bytes object, which
CPython then frees) *before* line 229 installs the new buffer in the engine.
Concretely, starting from an instance whose installed description is buffer 0
and calling `set_description` with new buffer 1: at the program point between
the two lines the engine still points at buffer 0 while buffer 0 is already
freed, so a concurrent render-thread read is unsafe there. -/
theorem claim4_old_buffer_freed_before_install :
    dropAndAssign { pyRef := some 0, engineDesc := some 0, freed := [] } 1
      ∈ set_description_states { pyRef := some 0, engineDesc := some 0, freed := [] } 1 ∧
    (dropAndAssign { pyRef := some 0, engineDesc := some 0, freed := [] } 1).engineDesc
      = some 0 ∧
    0 ∈ (dropAndAssign { pyRef := some 0, engineDesc := some 0, freed := [] } 1).freed ∧
    ¬ (dropAndAssign { pyRef := some 0, engineDesc := some 0, freed := [] } 1).readSafe ∧
    (installInEngine
      (dropAndAssign { pyRef := some 0, engineDesc := some 0, freed := [] } 1)).engineDesc
      = some 1 := by
  decide

/-- A render thread that has exited stays put. -/
lemma joinLoop_exited (fuel : Nat) (s : AsyncState) (h : s.exited = true) :
    joinLoop fuel s = s := by
  cases fuel <;> simp [joinLoop, h]

/-- With the shutdown flag set and at most `k` ticks of residual sleep, the
render thread exits within `k + 2` ticks, having performed exactly one final
render of the current counter value. -/
lemma joinLoop_exits (k : Nat) : ∀ (c : Int) (m : Nat) (fr : List Int), m ≤ k →
    joinLoop (k + 2) ⟨c, true, m, false, fr⟩ = ⟨c, true, 0, true, c :: fr⟩ := by
  induction k with
  | zero =>
    intro c m fr hm
    have hm0 : m = 0 := Nat.le_zero.mp hm
    subst hm0
    rfl
  | succ k ih =>
    intro c m fr hm
    cases m with
    | zero =>
      have h1 : joinLoop (k + 1 + 2) ⟨c, true, 0, false, fr⟩
          = joinLoop (k + 2) ⟨c, true, 0, true, c :: fr⟩ := rfl
      rw [h1, joinLoop_exited _ _ rfl]
    | succ m =>
      have h1 : joinLoop (k + 1 + 2) ⟨c, true, m + 1, false, fr⟩
          = joinLoop (k + 2) ⟨c, true, m, false, fr⟩ := rfl
      rw [h1]
      exact ih c m fr (Nat.le_of_succ_le_succ hm)

/-- **C5.** Modelled from the spec (the assembly render loop and
`progress_bar_close_async` are not in the repository sources; `_ffi.py` only
declares them): on a live async instance whose render thread is at most one
full sampling interval into its sleep, `close_async` returns within
`interval + 2` ticks — the fuel the join loop is given, a fixed bound of one
sampling interval plus the wake-and-exit tick — and when it returns the
render thread has exited (the caller blocks until then), having performed
exactly one final render whose displayed value is the final counter value,
which `close_async` leaves unchanged. -/
theorem claim5_close_async_final_render (s : AsyncState)
    (h1 : s.exited = false) (h2 : s.sleepRemaining ≤ interval) :
    (close_async s).exited = true ∧
    (close_async s).finalRenders = s.count :: s.finalRenders ∧
    (close_async s).count = s.count := by
  obtain ⟨c, sh, m, ex, fr⟩ := s
  simp only at h1 h2
  subst h1
  have hca : close_async ⟨c, sh, m, false, fr⟩
      = joinLoop (interval + 2) ⟨c, true, m, false, fr⟩ := rfl
  rw [hca, joinLoop_exits interval c m fr h2]
  exact ⟨rfl, rfl, rfl⟩

/-- Witness for C5 at a concrete input: a thread 5 ticks into its sleep with
counter 42 and no renders yet is joined with exactly one final render of 42. -/
theorem claim5_close_async_final_render_witness :
    (close_async ⟨42, false, 5, false, []⟩).finalRenders = [42] := by
  exact (claim5_close_async_final_render ⟨42, false, 5, false, []⟩ rfl
    (by decide)).2.1

end Asmqdm
